import Mathlib

/-!
Verification of the gemmini 2D geometry core.

Coordinates are embedded as real pairs; an (N, 2) numpy array of points
becomes a `List (ℝ × ℝ)`.  Each definition below mirrors one function of
`gemmini/d2/transform2D.py`, `gemmini/calc/coords.py`,
`gemmini/d2/polygon2D.py`, `gemmini/d2/_gem2D.py` or `gemmini/misc.py`;
fallible functions return `Except String`.  The CPython hashing used by
`misc.get_hash` is modelled separately on naturals.
-/

namespace Gemmini

/-- `numpy.mean` of a list of reals (sum divided by length). -/
noncomputable def mean (l : List ℝ) : ℝ := l.sum / l.length

/-- `numpy.max` of a list of reals; the source only applies it to
nonempty arrays. -/
noncomputable def npMax : List ℝ → ℝ
  | [] => 0
  | x :: xs => xs.foldl max x

/-- `transform2D.translate`: adds `mx` to every x and `my` to every y. -/
noncomputable def translate (coord : List (ℝ × ℝ)) (mx my : ℝ) : List (ℝ × ℝ) :=
  coord.map (fun p => (p.1 + mx, p.2 + my))

/-- `transform2D.flip`: flips every point about the point `p`. -/
noncomputable def flip (coord : List (ℝ × ℝ)) (p : ℝ × ℝ) : List (ℝ × ℝ) :=
  coord.map (fun q => (2 * p.1 - q.1, 2 * p.2 - q.2))

/-- `transform2D.flipX`: multiplies the y column by `-1`. -/
noncomputable def flipX (coord : List (ℝ × ℝ)) : List (ℝ × ℝ) :=
  coord.map (fun p => (p.1, p.2 * (-1)))

/-- `transform2D.flipY`: multiplies the x column by `-1`. -/
noncomputable def flipY (coord : List (ℝ × ℝ)) : List (ℝ × ℝ) :=
  coord.map (fun p => (p.1 * (-1), p.2))

/-- `transform2D.flipXY`: multiplies both columns by `-1`. -/
noncomputable def flipXY (coord : List (ℝ × ℝ)) : List (ℝ × ℝ) :=
  coord.map (fun p => (p.1 * (-1), p.2 * (-1)))

/-- `transform2D.flipDiagonal`: swaps the x and y columns. -/
noncomputable def flipDiagonal (coord : List (ℝ × ℝ)) : List (ℝ × ℝ) :=
  coord.map (fun p => (p.2, p.1))

/-- `transform2D.rotateZ`: plane rotation,
`rx = x·cos a − y·sin a`, `ry = x·sin a + y·cos a`. -/
noncomputable def rotateZ (coord : List (ℝ × ℝ)) (a : ℝ) : List (ℝ × ℝ) :=
  coord.map (fun p =>
    (p.1 * Real.cos a - p.2 * Real.sin a, p.1 * Real.sin a + p.2 * Real.cos a))

/-- `transform2D.rotate`: delegates to `rotateZ`. -/
noncomputable def rotate (coord : List (ℝ × ℝ)) (a : ℝ) : List (ℝ × ℝ) :=
  rotateZ coord a

theorem list_map_pointwise_id {α : Type} (f : α → α) (h : ∀ x, f x = x)
    (l : List α) : l.map f = l := by
  induction l with
  | nil => rfl
  | cons x xs ih => simp [h x, ih]

/-- Claim C8: `flipX`, `flipY`, `flipXY` and `flipDiagonal` are involutions
returning the point set exactly, and rotating by `a` and then by `-a`
returns the point set exactly (over real arithmetic). -/
theorem flip_involutions_and_rotate_roundtrip (P : List (ℝ × ℝ)) :
    flipX (flipX P) = P ∧ flipY (flipY P) = P ∧ flipXY (flipXY P) = P ∧
    flipDiagonal (flipDiagonal P) = P ∧
    ∀ a : ℝ, rotate (rotate P a) (-a) = P := by
  refine ⟨?_, ?_, ?_, ?_, ?_⟩
  · rw [flipX, flipX, List.map_map]
    exact list_map_pointwise_id _ (fun p => by simp) P
  · rw [flipY, flipY, List.map_map]
    exact list_map_pointwise_id _ (fun p => by simp) P
  · rw [flipXY, flipXY, List.map_map]
    exact list_map_pointwise_id _ (fun p => by simp) P
  · rw [flipDiagonal, flipDiagonal, List.map_map]
    exact list_map_pointwise_id _ (fun p => by simp) P
  · intro a
    rw [rotate, rotate, rotateZ, rotateZ, List.map_map]
    refine list_map_pointwise_id _ (fun p => ?_) P
    have h := Real.sin_sq_add_cos_sq a
    simp only [Function.comp, Real.cos_neg, Real.sin_neg]
    rw [Prod.ext_iff]
    constructor
    · linear_combination p.1 * h
    · linear_combination p.2 * h

/-- Strict lexicographic order on rows, the order `numpy.unique(..., axis=0)`
sorts by (first coordinate, then second). -/
def lexLt (p q : ℝ × ℝ) : Prop := p.1 < q.1 ∨ (p.1 = q.1 ∧ p.2 < q.2)

noncomputable instance lexLt_decidable : ∀ p q : ℝ × ℝ, Decidable (lexLt p q) :=
  fun p q => by unfold lexLt; infer_instance

/-- Insert a row into a lexicographically sorted duplicate-free list,
keeping it sorted and duplicate-free. -/
noncomputable def insertLex (q : ℝ × ℝ) : List (ℝ × ℝ) → List (ℝ × ℝ)
  | [] => [q]
  | p :: rest =>
    if q = p then p :: rest
    else if lexLt q p then q :: p :: rest
    else p :: insertLex q rest

/-- Models `numpy.unique(res, axis=0)`: the lexicographically sorted list of
the distinct rows of `res`. -/
noncomputable def npUnique : List (ℝ × ℝ) → List (ℝ × ℝ)
  | [] => []
  | p :: rest => insertLex p (npUnique rest)

/-- `transform2D.reflect`: flip about the point `p`, concatenate with the
original rows, and deduplicate with `numpy.unique`. -/
noncomputable def reflect (coord : List (ℝ × ℝ)) (p : ℝ × ℝ) : List (ℝ × ℝ) :=
  npUnique (coord ++ flip coord p)

/-- `transform2D.reflectX`: flip about the x-axis, concatenate, deduplicate. -/
noncomputable def reflectX (coord : List (ℝ × ℝ)) : List (ℝ × ℝ) :=
  npUnique (coord ++ flipX coord)

/-- `transform2D.reflectY`: flip about the y-axis, concatenate, deduplicate. -/
noncomputable def reflectY (coord : List (ℝ × ℝ)) : List (ℝ × ℝ) :=
  npUnique (coord ++ flipY coord)

/-- `transform2D.reflectXY`: flip about the origin, concatenate, deduplicate. -/
noncomputable def reflectXY (coord : List (ℝ × ℝ)) : List (ℝ × ℝ) :=
  npUnique (coord ++ flipXY coord)

/-- `transform2D.reflectDiagonal`: flip about the line y = x, concatenate,
deduplicate. -/
noncomputable def reflectDiagonal (coord : List (ℝ × ℝ)) : List (ℝ × ℝ) :=
  npUnique (coord ++ flipDiagonal coord)

theorem lexLt_trans {a b c : ℝ × ℝ} (h1 : lexLt a b) (h2 : lexLt b c) :
    lexLt a c := by
  rcases h1 with h1 | ⟨h1, h1x⟩ <;> rcases h2 with h2 | ⟨h2, h2x⟩
  · exact Or.inl (lt_trans h1 h2)
  · exact Or.inl (h2 ▸ h1)
  · exact Or.inl (h1 ▸ h2)
  · exact Or.inr ⟨h1.trans h2, lt_trans h1x h2x⟩

theorem lexLt_irrefl (a : ℝ × ℝ) : ¬ lexLt a a := by
  rintro (h | ⟨-, h⟩) <;> exact lt_irrefl _ h

theorem lexLt_ne {a b : ℝ × ℝ} (h : lexLt a b) : a ≠ b := by
  rintro rfl; exact lexLt_irrefl a h

theorem lexLt_of_not {p q : ℝ × ℝ} (hne : ¬ q = p) (hnlt : ¬ lexLt q p) :
    lexLt p q := by
  rcases lt_trichotomy p.1 q.1 with h | h | h
  · exact Or.inl h
  · rcases lt_trichotomy p.2 q.2 with h2 | h2 | h2
    · exact Or.inr ⟨h, h2⟩
    · exact absurd (Prod.ext_iff.mpr ⟨h.symm, h2.symm⟩) hne
    · exact absurd (Or.inr ⟨h.symm, h2⟩) hnlt
  · exact absurd (Or.inl h) hnlt

theorem mem_insertLex (a q : ℝ × ℝ) (l : List (ℝ × ℝ)) :
    a ∈ insertLex q l ↔ a = q ∨ a ∈ l := by
  induction l with
  | nil => simp [insertLex]
  | cons p rest ih =>
    simp only [insertLex]
    by_cases h1 : q = p
    · rw [if_pos h1]
      subst h1
      simp only [List.mem_cons]
      tauto
    · rw [if_neg h1]
      by_cases h2 : lexLt q p
      · rw [if_pos h2]
        simp only [List.mem_cons]
      · rw [if_neg h2]
        simp only [List.mem_cons, ih]
        tauto

theorem pairwise_insertLex (q : ℝ × ℝ) (l : List (ℝ × ℝ))
    (hl : l.Pairwise lexLt) : (insertLex q l).Pairwise lexLt := by
  induction l with
  | nil => simp [insertLex]
  | cons p rest ih =>
    rcases List.pairwise_cons.mp hl with ⟨hp, hrest⟩
    by_cases h1 : q = p
    · simpa only [insertLex, if_pos h1] using hl
    · by_cases h2 : lexLt q p
      · simp only [insertLex, if_neg h1, if_pos h2]
        refine List.pairwise_cons.mpr ⟨?_, hl⟩
        intro b hb
        rcases List.mem_cons.mp hb with rfl | hb
        · exact h2
        · exact lexLt_trans h2 (hp b hb)
      · simp only [insertLex, if_neg h1, if_neg h2]
        refine List.pairwise_cons.mpr ⟨?_, ih hrest⟩
        intro b hb
        rcases (mem_insertLex b q rest).mp hb with rfl | hb
        · exact lexLt_of_not h1 h2
        · exact hp b hb

theorem pairwise_npUnique (l : List (ℝ × ℝ)) : (npUnique l).Pairwise lexLt := by
  induction l with
  | nil => simp [npUnique]
  | cons p rest ih => exact pairwise_insertLex p _ ih

theorem nodup_npUnique (l : List (ℝ × ℝ)) : (npUnique l).Nodup :=
  (pairwise_npUnique l).imp lexLt_ne

theorem mem_npUnique (a : ℝ × ℝ) (l : List (ℝ × ℝ)) :
    a ∈ npUnique l ↔ a ∈ l := by
  induction l with
  | nil => simp [npUnique]
  | cons p rest ih =>
    simp only [npUnique, mem_insertLex, List.mem_cons, ih]

theorem length_le_npUnique_append (P Q : List (ℝ × ℝ)) (hP : P.Nodup) :
    P.length ≤ (npUnique (P ++ Q)).length := by
  rw [← List.toFinset_card_of_nodup hP,
      ← List.toFinset_card_of_nodup (nodup_npUnique (P ++ Q))]
  apply Finset.card_le_card
  intro x hx
  rw [List.mem_toFinset] at hx ⊢
  rw [mem_npUnique]
  exact List.mem_append_left _ hx

/-- Claim C10: every reflect variant returns the deduplicated union of the
input rows and their mirror image, in lexicographically sorted row order
with no duplicates (the behaviour of `numpy.unique` with `axis=0`); input
rows holding repeated points can yield an output shorter than the input. -/
theorem reflect_is_sorted_dedup_union (P : List (ℝ × ℝ)) :
    (∀ p : ℝ × ℝ, (reflect P p).Pairwise lexLt ∧ (reflect P p).Nodup ∧
      ∀ q : ℝ × ℝ, q ∈ reflect P p ↔ q ∈ P ∨ q ∈ flip P p) ∧
    ((reflectX P).Pairwise lexLt ∧ (reflectX P).Nodup ∧
      ∀ q : ℝ × ℝ, q ∈ reflectX P ↔ q ∈ P ∨ q ∈ flipX P) ∧
    ((reflectY P).Pairwise lexLt ∧ (reflectY P).Nodup ∧
      ∀ q : ℝ × ℝ, q ∈ reflectY P ↔ q ∈ P ∨ q ∈ flipY P) ∧
    ((reflectXY P).Pairwise lexLt ∧ (reflectXY P).Nodup ∧
      ∀ q : ℝ × ℝ, q ∈ reflectXY P ↔ q ∈ P ∨ q ∈ flipXY P) ∧
    ((reflectDiagonal P).Pairwise lexLt ∧ (reflectDiagonal P).Nodup ∧
      ∀ q : ℝ × ℝ, q ∈ reflectDiagonal P ↔ q ∈ P ∨ q ∈ flipDiagonal P) ∧
    ∃ Q : List (ℝ × ℝ), (reflectX Q).length < Q.length := by
  refine ⟨fun p => ⟨pairwise_npUnique _, nodup_npUnique _, fun q => ?_⟩,
    ⟨pairwise_npUnique _, nodup_npUnique _, fun q => ?_⟩,
    ⟨pairwise_npUnique _, nodup_npUnique _, fun q => ?_⟩,
    ⟨pairwise_npUnique _, nodup_npUnique _, fun q => ?_⟩,
    ⟨pairwise_npUnique _, nodup_npUnique _, fun q => ?_⟩, ?_⟩
  · rw [reflect, mem_npUnique, List.mem_append]
  · rw [reflectX, mem_npUnique, List.mem_append]
  · rw [reflectY, mem_npUnique, List.mem_append]
  · rw [reflectXY, mem_npUnique, List.mem_append]
  · rw [reflectDiagonal, mem_npUnique, List.mem_append]
  · refine ⟨[(0, 0), (0, 0)], ?_⟩
    have hf : flipX [((0:ℝ), (0:ℝ)), (0, 0)] = [(0, 0), (0, 0)] := by
      simp [flipX]
    rw [reflectX, hf]
    simp [npUnique, insertLex]

/-- Counterexample to Claim C3 as stated: on the point set
`[(1,0), (1,0)]` (two identical rows), `reflectX` returns fewer rows than
its input, because `numpy.unique` collapses the duplicates. -/
theorem reflectX_shrinks_on_duplicates :
    (reflectX [((1:ℝ), (0:ℝ)), (1, 0)]).length <
      ([((1:ℝ), (0:ℝ)), (1, 0)] : List (ℝ × ℝ)).length := by
  have hf : flipX [((1:ℝ), (0:ℝ)), (1, 0)] = [(1, 0), (1, 0)] := by
    simp [flipX]
  rw [reflectX, hf]
  simp [npUnique, insertLex]

/-- Claim C3 (amended): for a point set `P` with no repeated rows,
`reflectX(P)` (and every other reflect variant) returns at least as many
rows as `P`, while every flip variant returns exactly as many; on inputs
with repeated rows the reflect variants may return fewer
(see the counterexample). -/
theorem reflect_flip_cardinality (P : List (ℝ × ℝ)) (p : ℝ × ℝ) :
    (P.Nodup →
      P.length ≤ (reflect P p).length ∧ P.length ≤ (reflectX P).length ∧
      P.length ≤ (reflectY P).length ∧ P.length ≤ (reflectXY P).length ∧
      P.length ≤ (reflectDiagonal P).length) ∧
    ((flip P p).length = P.length ∧ (flipX P).length = P.length ∧
     (flipY P).length = P.length ∧ (flipXY P).length = P.length ∧
     (flipDiagonal P).length = P.length) := by
  refine ⟨fun hP => ⟨length_le_npUnique_append P _ hP,
    length_le_npUnique_append P _ hP, length_le_npUnique_append P _ hP,
    length_le_npUnique_append P _ hP, length_le_npUnique_append P _ hP⟩,
    ?_, ?_, ?_, ?_, ?_⟩ <;>
    simp [flip, flipX, flipY, flipXY, flipDiagonal]

theorem reflect_flip_cardinality_witness :
    ([((1:ℝ), (0:ℝ))] : List (ℝ × ℝ)).Nodup ∧
    1 ≤ (reflectX [((1:ℝ), (0:ℝ))]).length ∧
    (flipX [((1:ℝ), (0:ℝ)), (1, 0)]).length =
      ([((1:ℝ), (0:ℝ)), (1, 0)] : List (ℝ × ℝ)).length :=
  ⟨by simp,
   ((reflect_flip_cardinality [((1:ℝ), (0:ℝ))] ((0:ℝ), (0:ℝ))).1 (by simp)).2.1,
   (reflect_flip_cardinality [((1:ℝ), (0:ℝ)), (1, 0)] ((0:ℝ), (0:ℝ))).2.2.1⟩

/-- `_gem2D.Geometry2D`: the entity owns the current point array
`_points`; the geometric content of its transform methods is modelled on
that array (the hash bookkeeping of the `transform` wrapper is modelled
separately below). -/
structure Geometry2D where
  points : List (ℝ × ℝ)

/-- `Geometry2D.coords`: returns `_points`. -/
noncomputable def Geometry2D.coords (g : Geometry2D) : List (ℝ × ℝ) := g.points

/-- `Geometry2D.center`: `(np.mean(xs), np.mean(ys))`. -/
noncomputable def Geometry2D.center (g : Geometry2D) : ℝ × ℝ :=
  (mean (g.points.map Prod.fst), mean (g.points.map Prod.snd))

/-- `Geometry2D.translate`: replaces `_points` by `translate(_points, mx, my)`. -/
noncomputable def Geometry2D.translate (g : Geometry2D) (mx my : ℝ) : Geometry2D :=
  ⟨Gemmini.translate g.points mx my⟩

/-- `Geometry2D.rotate`: replaces `_points` by `rotate(_points, a)`. -/
noncomputable def Geometry2D.rotate (g : Geometry2D) (a : ℝ) : Geometry2D :=
  ⟨Gemmini.rotate g.points a⟩

theorem sum_map_add_const {α : Type} (l : List α) (f : α → ℝ) (c : ℝ) :
    (l.map fun x => f x + c).sum = (l.map f).sum + l.length * c := by
  induction l with
  | nil => simp
  | cons x xs ih => simp [ih]; ring

theorem sum_map_mul_sub {α : Type} (l : List α) (f g : α → ℝ) (c d : ℝ) :
    (l.map fun x => f x * c - g x * d).sum =
      (l.map f).sum * c - (l.map g).sum * d := by
  induction l with
  | nil => simp
  | cons x xs ih => simp [ih]; ring

theorem sum_map_mul_add {α : Type} (l : List α) (f g : α → ℝ) (c d : ℝ) :
    (l.map fun x => f x * c + g x * d).sum =
      (l.map f).sum * c + (l.map g).sum * d := by
  induction l with
  | nil => simp
  | cons x xs ih => simp [ih]; ring

/-- Counterexample to Claim C1 as stated: `Geometry2D.rotate` does not fix
the centroid.  For the geometry with single point (1, 0), rotating by π/2
moves the centroid from (1, 0) to (0, 1). -/
theorem gem_rotate_center_moves :
    ((Geometry2D.mk [((1:ℝ), (0:ℝ))]).rotate (Real.pi / 2)).center ≠
      (Geometry2D.mk [((1:ℝ), (0:ℝ))]).center := by
  intro h
  have h1 := congrArg Prod.fst h
  simp [Geometry2D.rotate, Geometry2D.center, Gemmini.rotate, rotateZ, mean,
    Real.cos_pi_div_two, Real.sin_pi_div_two] at h1

/-- Claim C1 (amended): `Geometry2D.rotate(a)` rotates the stored point set
about the ORIGIN (not the centroid): afterwards `coords()` equals the
previous points rotated by `[[cos a, −sin a], [sin a, cos a]]` about the
origin, and `center()` equals the previous centroid rotated about the
origin (so the centroid is in general not preserved). -/
theorem gem_rotate_about_origin (g : Geometry2D) (a : ℝ) :
    (g.rotate a).coords = g.coords.map (fun p =>
      (p.1 * Real.cos a - p.2 * Real.sin a,
       p.1 * Real.sin a + p.2 * Real.cos a)) ∧
    (g.rotate a).center =
      ((g.center).1 * Real.cos a - (g.center).2 * Real.sin a,
       (g.center).1 * Real.sin a + (g.center).2 * Real.cos a) := by
  constructor
  · rfl
  · rw [Prod.ext_iff]
    constructor
    · show mean (((g.points.map _).map Prod.fst)) = _
      rw [List.map_map]
      show mean (g.points.map fun p =>
        p.1 * Real.cos a - p.2 * Real.sin a) = _
      rw [mean, sum_map_mul_sub, List.length_map]
      rw [Geometry2D.center, mean, mean]
      simp only [List.length_map]
      ring
    · show mean (((g.points.map _).map Prod.snd)) = _
      rw [List.map_map]
      show mean (g.points.map fun p =>
        p.1 * Real.sin a + p.2 * Real.cos a) = _
      rw [mean, sum_map_mul_add, List.length_map]
      rw [Geometry2D.center, mean, mean]
      simp only [List.length_map]
      ring

/-- Claim C9: for a geometry with at least one point, the centroid after
`translate(dx, dy)` equals the centroid before, offset by exactly
`(dx, dy)`. -/
theorem gem_translate_center (g : Geometry2D) (dx dy : ℝ)
    (h : g.points ≠ []) :
    (g.translate dx dy).center = ((g.center).1 + dx, (g.center).2 + dy) := by
  have hN : ((g.points.length : ℝ)) ≠ 0 :=
    Nat.cast_ne_zero.mpr (fun hh => h (List.length_eq_zero.mp hh))
  rw [Prod.ext_iff]
  constructor
  · show mean (((g.points.map _).map Prod.fst)) = _
    rw [List.map_map]
    show mean (g.points.map fun p => p.1 + dx) = _
    rw [mean, sum_map_add_const, List.length_map]
    rw [Geometry2D.center]
    simp only [mean, List.length_map]
    field_simp
    ring
  · show mean (((g.points.map _).map Prod.snd)) = _
    rw [List.map_map]
    show mean (g.points.map fun p => p.2 + dy) = _
    rw [mean, sum_map_add_const, List.length_map]
    rw [Geometry2D.center]
    simp only [mean, List.length_map]
    field_simp
    ring

theorem gem_translate_center_witness :
    (Geometry2D.mk [((1:ℝ), (2:ℝ))]).points ≠ [] ∧
    (((Geometry2D.mk [((1:ℝ), (2:ℝ))]).translate 3 4).center =
      (((Geometry2D.mk [((1:ℝ), (2:ℝ))]).center).1 + 3,
       ((Geometry2D.mk [((1:ℝ), (2:ℝ))]).center).2 + 4)) :=
  ⟨by simp, gem_translate_center (Geometry2D.mk [((1:ℝ), (2:ℝ))]) 3 4 (by simp)⟩

/-- `coords.rotate_2D`, single-point branch (`_isPoint(xy)` true):
`(x·cos θ − y·sin θ, x·sin θ + y·cos θ)`. -/
noncomputable def rotate_2D_point (xy : ℝ × ℝ) (theta : ℝ) : ℝ × ℝ :=
  (xy.1 * Real.cos theta - xy.2 * Real.sin theta,
   xy.1 * Real.sin theta + xy.2 * Real.cos theta)

/-- `coords.rotate_2D`, array branch: `np.dot(xy, r)` with
`r = [[c, −s], [s, c]]`, so row i becomes `(x·c + y·s, −x·s + y·c)`. -/
noncomputable def rotate_2D_array (xy : List (ℝ × ℝ)) (theta : ℝ) : List (ℝ × ℝ) :=
  xy.map (fun p =>
    (p.1 * Real.cos theta + p.2 * Real.sin theta,
     p.1 * (-Real.sin theta) + p.2 * Real.cos theta))

/-- Claim C4 (evaluation at the failing input): the two branches of
`rotate_2D` disagree.  At θ = π/2 the single-point branch sends (1, 0) to
(0, 1) (anti-clockwise, as the docstring states), while the array branch
sends the single row (1, 0) to (0, −1) (clockwise), so row i of the array
result is not the single-point rotation of row i. -/
theorem rotate_2D_modes_disagree :
    rotate_2D_point ((1:ℝ), (0:ℝ)) (Real.pi / 2) = (0, 1) ∧
    rotate_2D_array [((1:ℝ), (0:ℝ))] (Real.pi / 2) = [(0, -1)] ∧
    ((0:ℝ), (-1:ℝ)) ≠ ((0:ℝ), (1:ℝ)) := by
  refine ⟨?_, ?_, ?_⟩
  · simp [rotate_2D_point, Real.cos_pi_div_two, Real.sin_pi_div_two]
  · simp [rotate_2D_array, Real.cos_pi_div_two, Real.sin_pi_div_two]
  · intro h
    have h2 := congrArg Prod.snd h
    norm_num at h2

/-- `coords.mesh_dist`, modelling the numpy broadcasting of
`np.sqrt(((a[:, None] - b[:, :, None]) ** 2).sum(0))` for (N, 2) inputs:
`a[:, None]` has shape (N, 1, 2) and `b[:, :, None]` has shape (M, 2, 1);
their difference broadcasts to shape (max(N, M), 2, 2) when `N = M`,
`N = 1` or `M = 1` (otherwise numpy raises a broadcast error), and the
axis-0 sum collapses it to a 2×2 matrix whose entry (l, k) sums over the
point index. -/
noncomputable def mesh_dist (a b : List (ℝ × ℝ)) : Except String (List (List ℝ)) :=
  if ¬ (a.length = b.length ∨ a.length = 1 ∨ b.length = 1) then
    .error "operands could not be broadcast together"
  else
    let K := max a.length b.length
    let aRow : ℕ → ℝ × ℝ := fun i =>
      if a.length = 1 then a.getD 0 (0, 0) else a.getD i (0, 0)
    let bRow : ℕ → ℝ × ℝ := fun i =>
      if b.length = 1 then b.getD 0 (0, 0) else b.getD i (0, 0)
    let coordAt : ℝ × ℝ → ℕ → ℝ := fun p k => if k = 0 then p.1 else p.2
    let S : ℕ → ℕ → ℝ := fun l k =>
      ((List.range K).map
        (fun i => (coordAt (aRow i) k - coordAt (bRow i) l) ^ 2)).sum
    .ok [[Real.sqrt (S 0 0), Real.sqrt (S 0 1)],
         [Real.sqrt (S 1 0), Real.sqrt (S 1 1)]]

/-- Claim C2 (evaluation at the failing input): `mesh_dist` does not
compute the pairwise-distance matrix its docstring promises.  For
A = B = [(0,0), (3,4)] it returns the 2×2 matrix [[0, 1], [1, 0]],
whereas the documented contract demands entry (0, 1) to be
`dist((0,0), (3,4)) = 5`. -/
theorem mesh_dist_not_pairwise :
    mesh_dist [((0:ℝ), 0), (3, 4)] [((0:ℝ), 0), (3, 4)] =
      .ok [[0, 1], [1, 0]] ∧ (1:ℝ) ≠ 5 := by
  constructor
  · rw [mesh_dist, if_neg (by norm_num)]
    norm_num [List.range_succ, List.getD]
  · norm_num

/-- `transform2D.focus`: pulls each point towards the pivot `p`, dividing
its offset from the pivot by `d = sqrt(1 + rate·(r/R)²)` where `r` is the
point's distance from the pivot and `R` the maximum such distance. -/
noncomputable def focus (coord : List (ℝ × ℝ)) (p : ℝ × ℝ) (rate : ℝ) :
    List (ℝ × ℝ) :=
  let cx := p.1
  let cy := p.2
  let R := npMax (coord.map (fun q => Real.sqrt ((q.1 - cx) ^ 2 + (q.2 - cy) ^ 2)))
  coord.map (fun q =>
    let d := Real.sqrt (1 + rate *
      (Real.sqrt ((q.1 - cx) ^ 2 + (q.2 - cy) ^ 2) / R) ^ 2)
    (cx + (q.1 - cx) / d, cy + (q.2 - cy) / d))

/-- `transform2D.distort`: validates the method name (and, for
`pincushion`, that `rate < 1`, negating the rate), then applies the same
radial model as `focus` but centred on the centroid
`(np.mean(x), np.mean(y))`. -/
noncomputable def distort (coord : List (ℝ × ℝ)) (method : String) (rate : ℝ) :
    Except String (List (ℝ × ℝ)) :=
  if ¬ (method = "barrel" ∨ method = "pincushion") then
    .error "[Error] distort: method argument should be either barrel or pincushion"
  else if method = "pincushion" ∧ 1 ≤ rate then
    .error "[Error] distort: pincushion distortion coefficients should be larger than 1"
  else
    let rate := if method = "pincushion" then rate * (-1) else rate
    let cx := mean (coord.map Prod.fst)
    let cy := mean (coord.map Prod.snd)
    let R := npMax (coord.map (fun q => Real.sqrt ((q.1 - cx) ^ 2 + (q.2 - cy) ^ 2)))
    .ok (coord.map (fun q =>
      let d := Real.sqrt (1 + rate *
        (Real.sqrt ((q.1 - cx) ^ 2 + (q.2 - cy) ^ 2) / R) ^ 2)
      (cx + (q.1 - cx) / d, cy + (q.2 - cy) / d)))

/-- Claim C5: for every point set and rate, `distort(P, 'barrel', rate)`
returns exactly `focus(P, c, rate)` where `c` is the centroid of `P`
(mean of the x's and of the y's): the two functions compute identical
math, differing only in where the centre comes from. -/
theorem distort_barrel_eq_focus (coord : List (ℝ × ℝ)) (rate : ℝ) :
    distort coord "barrel" rate =
      .ok (focus coord
        (mean (coord.map Prod.fst), mean (coord.map Prod.snd)) rate) := by
  rw [distort, if_neg (by simp), if_neg (by rintro ⟨h, -⟩; exact absurd h (by decide))]
  rw [if_neg (by decide)]
  rfl

/-- `polygon2D.RegularPolygon._draw_edge`: one dot of one edge, built at
the bottom edge and rotated to vertex `v` by the single-point
`rotate_2D`. -/
noncomputable def draw_edge (s : ℝ) (nV nD : ℕ) (v e : ℕ) : ℝ × ℝ :=
  let dx : ℝ := -s / 2 + s * e / ((nD : ℝ) - 1)
  let dy : ℝ := -s / (2 * Real.tan (Real.pi / nV))
  rotate_2D_point (dx, dy) (2 * v * Real.pi / nV)

/-- `polygon2D.RegularPolygon.__init__` with `size = s`,
`num_vertex = v`, `num_dot = n`: validates `v ≥ 3` and `n ≥ 2` before any
point is generated, then generates, for each vertex `i < v`, the dots
`e = 1, …, n−1` of its edge, and finally reaches `Geometry2D.__init__`
via `super().__init__`, which raises when the stored size `uS = s` is
non-positive.  (Coordinate generation is total, so the observable result
of a non-positive size is that error.) -/
noncomputable def RegularPolygon (s : ℝ) (v n : ℕ) :
    Except String (List (ℝ × ℝ)) :=
  if v < 3 then
    .error "[ERROR] RegularPolygon: Requires at least 3 vertices."
  else if n < 2 then
    .error "[ERROR] RegularPolygon: Each side must have at least 2 dots."
  else if s ≤ 0 then
    .error "[ERROR] RegularPolygon: Arguments such as size, height, and width can not be non-positive."
  else
    .ok ((List.range v).flatMap
      (fun i => (List.range (n - 1)).map (fun j => draw_edge s v n i (j + 1))))

/-- Claim C7: constructing a `RegularPolygon` with fewer than 3 vertices
fails immediately (before any point is generated), as does fewer than 2
dots per edge (and, via the base constructor, a non-positive size); with
`num_vertex = 3` and valid remaining parameters construction succeeds,
and invalid counts are never clamped: the successful result has exactly
`v·(n−1)` points generated from the requested parameters. -/
theorem regularPolygon_validation (s : ℝ) (v n : ℕ) :
    (v < 3 →
      RegularPolygon s v n =
        .error "[ERROR] RegularPolygon: Requires at least 3 vertices.") ∧
    (3 ≤ v → n < 2 →
      RegularPolygon s v n =
        .error "[ERROR] RegularPolygon: Each side must have at least 2 dots.") ∧
    (3 ≤ v → 2 ≤ n → s ≤ 0 →
      RegularPolygon s v n =
        .error "[ERROR] RegularPolygon: Arguments such as size, height, and width can not be non-positive.") ∧
    (3 ≤ v → 2 ≤ n → 0 < s → ∃ l : List (ℝ × ℝ),
      RegularPolygon s v n = .ok l ∧ l.length = v * (n - 1)) := by
  refine ⟨fun h => ?_, fun h3 h2 => ?_, fun h3 h2 hs => ?_, fun h3 h2 hs => ?_⟩
  · rw [RegularPolygon, if_pos h]
  · rw [RegularPolygon, if_neg (by omega), if_pos h2]
  · rw [RegularPolygon, if_neg (by omega), if_neg (by omega), if_pos hs]
  · refine ⟨_, by
      rw [RegularPolygon, if_neg (by omega), if_neg (by omega),
        if_neg (not_le.mpr hs)], ?_⟩
    rw [List.length_flatMap]
    rw [show (List.length ∘ fun i =>
        (List.range (n - 1)).map (fun j => draw_edge s v n i (j + 1)))
        = fun _ => n - 1 by funext i; simp]
    rw [List.map_const', List.sum_replicate, smul_eq_mul, List.length_range]

theorem regularPolygon_validation_witness :
    (2 < 3 ∧
      RegularPolygon 1 2 8 =
        .error "[ERROR] RegularPolygon: Requires at least 3 vertices.") ∧
    ((-1 : ℝ) ≤ 0 ∧
      RegularPolygon (-1) 3 8 =
        .error "[ERROR] RegularPolygon: Arguments such as size, height, and width can not be non-positive.") ∧
    (3 ≤ 3 ∧ 2 ≤ 8 ∧ (0:ℝ) < 1 ∧ ∃ l : List (ℝ × ℝ),
      RegularPolygon 1 3 8 = .ok l ∧ l.length = 3 * (8 - 1)) :=
  ⟨⟨by norm_num, (regularPolygon_validation 1 2 8).1 (by norm_num)⟩,
   ⟨by norm_num, (regularPolygon_validation (-1) 3 8).2.2.1 (by norm_num)
      (by norm_num) (by norm_num)⟩,
   by norm_num,
   by norm_num,
   by norm_num,
   (regularPolygon_validation 1 3 8).2.2.2 (by norm_num) (by norm_num)
     (by norm_num)⟩

/-- CPython hash of a nonnegative `int`: reduction modulo the Mersenne
prime 2⁶¹ − 1. -/
def pyHashInt (n : ℕ) : ℕ := n % (2 ^ 61 - 1)

/-- 64-bit rotate left by 31 of a value below 2⁶⁴. -/
def rotl31 (x : ℕ) : ℕ := (x % 2 ^ 33) * 2 ^ 31 + x / 2 ^ 33

/-- One lane step of CPython's tuple hash (the xxHash-based algorithm of
CPython ≥ 3.8, 64-bit build):
`acc ← rotl31(acc + lane·XXPRIME_2) · XXPRIME_1 mod 2⁶⁴`. -/
def pyTupleStep (acc lane : ℕ) : ℕ :=
  rotl31 ((acc + lane * 14029467366897019727) % 2 ^ 64) * 11400714785074694791 % 2 ^ 64

/-- CPython's hash of a tuple whose items hash to `lanes`: fold the lane
step over `XXPRIME_5`, add `len XOR (XXPRIME_5 XOR 3527539)`, and map the
reserved value 2⁶⁴ − 1 to 1546275796.  (This model reproduces
`hash(()) = 5740354900026072187`.) -/
def pyTupleHash (lanes : List ℕ) : ℕ :=
  let acc := lanes.foldl pyTupleStep 2870177450012600261
  let acc := (acc + Nat.xor lanes.length (Nat.xor 2870177450012600261 3527539)) % 2 ^ 64
  if acc = 2 ^ 64 - 1 then 1546275796 else acc

/-- Reinterpret a 64-bit unsigned hash as CPython's signed `Py_hash_t`. -/
def signed64 (h : ℕ) : ℤ := if h < 2 ^ 63 then (h : ℤ) else (h : ℤ) - 2 ^ 64

/-- `misc.get_hash(a, b)` when the transform is called with two
nonnegative Python ints: `hash((a, b))`. -/
def get_hash2 (a b : ℕ) : ℤ := signed64 (pyTupleHash [pyHashInt a, pyHashInt b])

/-- `Geometry2D` state as the `transform` wrapper sees it: the point array
together with `_base_hash`. -/
structure GemH where
  points : List (ℝ × ℝ)
  baseHash : ℤ

/-- `Geometry2D.__hash__`: returns `_base_hash` and mutates nothing. -/
def GemH.hashRead (g : GemH) : ℤ × GemH := (g.baseHash, g)

/-- The `transform`-wrapped `Geometry2D.translate` called with two
nonnegative Python ints: `_base_hash += get_hash(mx, my)`, then the points
are translated. -/
noncomputable def GemH.translateInt (g : GemH) (mx my : ℕ) : GemH :=
  ⟨Gemmini.translate g.points mx my, g.baseHash + get_hash2 mx my⟩

/-- Counterexample to Claim C6 as stated: the hash does NOT change after
every mutating transform call.  CPython's `hash((25, 866694567865610361))`
is 0, so `translate(25, 866694567865610361)` leaves `_base_hash` — and
hence `__hash__` — unchanged. -/
theorem gem_hash_unchanged_translate :
    ((GemH.mk [((0:ℝ), 0)] 37).translateInt 25 866694567865610361).hashRead.1 =
      (GemH.mk [((0:ℝ), 0)] 37).hashRead.1 := by
  show (37 : ℤ) + get_hash2 25 866694567865610361 = 37
  rw [show get_hash2 25 866694567865610361 = 0 from by decide, add_zero]

/-- Claim C6 (amended): reading `__hash__` is stable and mutates nothing,
and a mutating transform call adds the CPython hash of its argument tuple
to `_base_hash`; the hash therefore changes exactly when that argument
hash is nonzero — which holds for typical arguments but not for all (see
the counterexample). -/
theorem gem_hash_update (g : GemH) (a b : ℕ) :
    g.hashRead.1 = g.baseHash ∧ g.hashRead.2 = g ∧
    (g.translateInt a b).baseHash = g.baseHash + get_hash2 a b ∧
    (get_hash2 a b ≠ 0 →
      (g.translateInt a b).hashRead.1 ≠ g.hashRead.1) := by
  refine ⟨rfl, rfl, rfl, fun h hc => h ?_⟩
  have : g.baseHash + get_hash2 a b = g.baseHash := hc
  omega

theorem gem_hash_update_witness :
    get_hash2 1 2 ≠ 0 ∧
    ((GemH.mk [] 0).translateInt 1 2).hashRead.1 ≠ (GemH.mk [] 0).hashRead.1 :=
  ⟨by decide, (gem_hash_update (GemH.mk [] 0) 1 2).2.2.2 (by decide)⟩

end Gemmini
